import Mathlib

/-!
Verification of the academic-planning backend rules engine
(`backend/app/business_logic.py`, `backend/app/database.py`,
`backend/app/api/enrollments.py`) against its design specification.

Real numbers appearing in the Python source (grades, averages) are
modelled as rationals; Python `round(x, 2)` (round-half-to-even on the
value) is modelled by `round2`.  Functions that `raise` in Python return
`Except CalcError`.
-/

/-- The exception classes raised by the calculators: out-of-range grade,
malformed "HH:MM" time token, non-positive configured total hours. -/
inductive CalcError where
  | outOfRange
  | malformedTime
  | invalidConfiguration
deriving DecidableEq, Repr

/-- Round a rational to 2 decimal places, ties to even, mirroring
Python `round(x, 2)` at the value level. -/
def round2 (q : ℚ) : ℚ :=
  let x := q * 100
  let f := Int.floor x
  let r := x - f
  let n : ℤ :=
    if r < 1/2 then f
    else if 1/2 < r then f + 1
    else if f % 2 = 0 then f else f + 1
  (n : ℚ) / 100

/-- Descending sort, mirroring Python `notes.sort(reverse=True)`. -/
def sortDesc (l : List ℚ) : List ℚ :=
  l.insertionSort (fun a b => b ≤ a)

/-- Model of `AcademicCalculations.calculate_ufrpe_average`: validate each grade is
in `[0,10]`, sort descending, return the mean of the two largest rounded
to 2 decimals. -/
def calculate_ufrpe_average (n1 n2 n3 : ℚ) : Except CalcError ℚ :=
  if 0 ≤ n1 ∧ n1 ≤ 10 then
    if 0 ≤ n2 ∧ n2 ≤ 10 then
      if 0 ≤ n3 ∧ n3 ≤ 10 then
        let notes := sortDesc [n1, n2, n3]
        Except.ok (round2 ((notes.headD 0 + (notes.drop 1).headD 0) / 2))
      else Except.error CalcError.outOfRange
    else Except.error CalcError.outOfRange
  else Except.error CalcError.outOfRange

/-- Model of `AcademicCalculations.calculate_final_exam_grade`: absent when already
passing (`≥ 7`) or failed outright (`< 3`); otherwise the remedial grade
needed is `10 - average`, rounded. -/
def calculate_final_exam_grade (average : ℚ) : Except CalcError (Option ℚ) :=
  if ¬(0 ≤ average ∧ average ≤ 10) then Except.error CalcError.outOfRange
  else if 7 ≤ average ∨ average < 3 then Except.ok none
  else Except.ok (some (round2 (10 - average)))

/-- Model of `AcademicCalculations.calculate_course_progress`: reject non-positive
totals, clamp completed hours below by 0 then above by the total, return
the percentage rounded to 2 decimals. -/
def calculate_course_progress (completed_hours total_hours : ℤ) : Except CalcError ℚ :=
  if total_hours ≤ 0 then Except.error CalcError.invalidConfiguration
  else
    let c1 : ℤ := if completed_hours < 0 then 0 else completed_hours
    let c2 : ℤ := if c1 > total_hours then total_hours else c1
    Except.ok (round2 ((c2 : ℚ) / (total_hours : ℚ) * 100))

lemma sortDesc_three_sum (a b c : ℚ) :
    (sortDesc [a, b, c]).headD 0 + ((sortDesc [a, b, c]).drop 1).headD 0
      = a + b + c - min a (min b c) := by
  simp only [sortDesc, List.insertionSort, List.orderedInsert]
  split_ifs with h1 <;>
    simp only [List.orderedInsert] <;>
    split_ifs <;>
    simp [min_def] <;>
    (try split_ifs) <;>
    linarith

lemma ufrpe_closed_form (n1 n2 n3 : ℚ) :
    calculate_ufrpe_average n1 n2 n3 =
      if (0 ≤ n1 ∧ n1 ≤ 10) ∧ (0 ≤ n2 ∧ n2 ≤ 10) ∧ (0 ≤ n3 ∧ n3 ≤ 10) then
        Except.ok (round2 ((n1 + n2 + n3 - min n1 (min n2 n3)) / 2))
      else Except.error CalcError.outOfRange := by
  unfold calculate_ufrpe_average
  split_ifs with h1 h2 h3 h4 h4 h4 <;>
    first
      | tauto
      | simp only [sortDesc_three_sum]

lemma round2_eq (q : ℚ) (n : ℤ) (h : q * 100 = (n : ℚ)) :
    round2 q = (n : ℚ) / 100 := by
  unfold round2
  simp only [h, Int.floor_intCast, sub_self]
  norm_num

lemma ufrpe_perm_aux (a b c d e f : ℚ)
    (hcond : ((0 ≤ a ∧ a ≤ 10) ∧ (0 ≤ b ∧ b ≤ 10) ∧ (0 ≤ c ∧ c ≤ 10)) ↔
             ((0 ≤ d ∧ d ≤ 10) ∧ (0 ≤ e ∧ e ≤ 10) ∧ (0 ≤ f ∧ f ≤ 10)))
    (hval : a + b + c - min a (min b c) = d + e + f - min d (min e f)) :
    calculate_ufrpe_average a b c = calculate_ufrpe_average d e f := by
  rw [ufrpe_closed_form, ufrpe_closed_form, hval]
  exact if_congr hcond rfl rfl

/-- C1: for grades in [0,10], `calculate_ufrpe_average` is the mean of the
two largest grades (the grade total minus the smallest, halved), rounded
to 2 decimals; it is invariant under all six permutations of its inputs;
out-of-range input yields the out-of-range error.  Sample values from the
spec: (10,8,2) ↦ 9, (10,10,10) ↦ 10, (0,0,0) ↦ 0. -/
theorem C1_finalAverage_mean_of_two_largest (n1 n2 n3 : ℚ) :
    (calculate_ufrpe_average n1 n2 n3 =
      if (0 ≤ n1 ∧ n1 ≤ 10) ∧ (0 ≤ n2 ∧ n2 ≤ 10) ∧ (0 ≤ n3 ∧ n3 ≤ 10) then
        Except.ok (round2 ((n1 + n2 + n3 - min n1 (min n2 n3)) / 2))
      else Except.error CalcError.outOfRange)
    ∧ calculate_ufrpe_average n1 n2 n3 = calculate_ufrpe_average n1 n3 n2
    ∧ calculate_ufrpe_average n1 n2 n3 = calculate_ufrpe_average n2 n1 n3
    ∧ calculate_ufrpe_average n1 n2 n3 = calculate_ufrpe_average n2 n3 n1
    ∧ calculate_ufrpe_average n1 n2 n3 = calculate_ufrpe_average n3 n1 n2
    ∧ calculate_ufrpe_average n1 n2 n3 = calculate_ufrpe_average n3 n2 n1
    ∧ calculate_ufrpe_average 10 8 2 = Except.ok 9
    ∧ calculate_ufrpe_average 10 10 10 = Except.ok 10
    ∧ calculate_ufrpe_average 0 0 0 = Except.ok 0
    ∧ calculate_ufrpe_average 11 5 5 = Except.error CalcError.outOfRange := by
  refine ⟨ufrpe_closed_form n1 n2 n3, ?_, ?_, ?_, ?_, ?_, ?_, ?_, ?_, ?_⟩
  · exact ufrpe_perm_aux _ _ _ _ _ _ (by tauto)
      (by rcases le_total n2 n3 with h | h <;> simp [min_def] <;> split_ifs <;> linarith)
  · exact ufrpe_perm_aux _ _ _ _ _ _ (by tauto)
      (by rcases le_total n1 n2 with h | h <;> simp [min_def] <;> split_ifs <;> linarith)
  · exact ufrpe_perm_aux _ _ _ _ _ _ (by tauto)
      (by rcases le_total n1 n2 with h | h <;> simp [min_def] <;> split_ifs <;> linarith)
  · exact ufrpe_perm_aux _ _ _ _ _ _ (by tauto)
      (by rcases le_total n1 n3 with h | h <;> simp [min_def] <;> split_ifs <;> linarith)
  · exact ufrpe_perm_aux _ _ _ _ _ _ (by tauto)
      (by rcases le_total n1 n3 with h | h <;> simp [min_def] <;> split_ifs <;> linarith)
  · rw [ufrpe_closed_form]
    norm_num [min_def]
    rw [round2_eq 9 900 (by norm_num)]
    norm_num
  · rw [ufrpe_closed_form]
    norm_num [min_def]
    rw [round2_eq 10 1000 (by norm_num)]
    norm_num
  · rw [ufrpe_closed_form]
    norm_num [min_def]
    rw [round2_eq 0 0 (by norm_num)]
    norm_num
  · rw [ufrpe_closed_form]
    norm_num

/-- C6: on [0,10], the remedial grade is absent for averages ≥ 7 or < 3 and
equals `10 − x` rounded to 2 decimals for 3 ≤ x < 7 (both boundaries as
stated: 3 needs 7.00, 7 is absent, 6.99 needs 3.01); out-of-range input
fails with the out-of-range error. -/
theorem C6_remedialGradeNeeded (x : ℚ) :
    (calculate_final_exam_grade x =
      if 0 ≤ x ∧ x ≤ 10 then
        Except.ok (if 3 ≤ x ∧ x < 7 then some (round2 (10 - x)) else none)
      else Except.error CalcError.outOfRange)
    ∧ calculate_final_exam_grade 3 = Except.ok (some 7)
    ∧ calculate_final_exam_grade (699/100) = Except.ok (some (301/100))
    ∧ calculate_final_exam_grade 7 = Except.ok none
    ∧ calculate_final_exam_grade (299/100) = Except.ok none
    ∧ calculate_final_exam_grade 11 = Except.error CalcError.outOfRange := by
  have key : ∀ y : ℚ, calculate_final_exam_grade y =
      if 0 ≤ y ∧ y ≤ 10 then
        Except.ok (if 3 ≤ y ∧ y < 7 then some (round2 (10 - y)) else none)
      else Except.error CalcError.outOfRange := by
    intro y
    unfold calculate_final_exam_grade
    split_ifs with h1 h2 h3 h3 <;> try rfl
    · rcases h2 with h | h
      · exact absurd h3.2 (not_lt.mpr h)
      · exact absurd h3.1 (not_le.mpr h)
    · push_neg at h2 h3
      exact absurd h2.1 (not_lt.mpr (h3 h2.2))
  refine ⟨key x, ?_, ?_, ?_, ?_, ?_⟩
  · rw [key]
    norm_num
    rw [round2_eq 7 700 (by norm_num)]
    norm_num
  · rw [key]
    norm_num
    rw [round2_eq (301/100) 301 (by norm_num)]
    norm_num
  · rw [key]; norm_num
  · rw [key]; norm_num
  · rw [key]; norm_num

/-- C9: non-positive total hours fail with the configuration error;
otherwise the completed hours are clamped into [0, total] and the
percentage `100 * completed / total` is rounded to 2 decimals; the
sample values from the spec (-5,100) ↦ 0.00, (150,100) ↦ 100.00 and the failing (0,0)
hold. -/
theorem C9_courseProgressPercent (c t : ℤ) :
    (calculate_course_progress c t =
      if t ≤ 0 then Except.error CalcError.invalidConfiguration
      else Except.ok (round2 (100 * ((max 0 (min c t) : ℤ) : ℚ) / (t : ℚ))))
    ∧ calculate_course_progress (-5) 100 = Except.ok 0
    ∧ calculate_course_progress 150 100 = Except.ok 100
    ∧ calculate_course_progress 0 0 = Except.error CalcError.invalidConfiguration := by
  have key : ∀ c t : ℤ, calculate_course_progress c t =
      if t ≤ 0 then Except.error CalcError.invalidConfiguration
      else Except.ok (round2 (100 * ((max 0 (min c t) : ℤ) : ℚ) / (t : ℚ))) := by
    intro c t
    unfold calculate_course_progress
    by_cases ht : t ≤ 0
    · simp [ht]
    · simp only [if_neg ht]
      have hc : (if (if c < 0 then (0:ℤ) else c) > t then t else if c < 0 then (0:ℤ) else c)
          = max 0 (min c t) := by
        simp only [max_def, min_def]
        split_ifs <;> omega
      simp only [hc]
      congr 2
      ring
  refine ⟨key c t, ?_, ?_, ?_⟩
  · rw [key]
    norm_num
    rw [round2_eq 0 0 (by norm_num)]
    norm_num
  · rw [key]
    norm_num
    rw [round2_eq 100 10000 (by norm_num)]
    norm_num
  · rw [key]; norm_num

/-- Split a character list at every occurrence of `sep`, mirroring Python
`str.split(sep)` (so the empty string yields one empty part). -/
def splitOnChar (sep : Char) : List Char → List (List Char)
  | [] => [[]]
  | c :: rest =>
    let r := splitOnChar sep rest
    if c = sep then [] :: r
    else match r with
      | [] => [[c]]
      | p :: ps => (c :: p) :: ps

def digitsToNat : List Char → ℕ → ℕ
  | [], acc => acc
  | c :: rest, acc => digitsToNat rest (acc * 10 + (c.toNat - 48))

/-- Strip leading and trailing whitespace, mirroring what Python `int`
does to its string argument before parsing. -/
def pyStrip (s : List Char) : List Char :=
  ((s.dropWhile (·.isWhitespace)).reverse.dropWhile (·.isWhitespace)).reverse

/-- Python `int(s)` on a decimal string: optional surrounding whitespace,
optional single sign, then a non-empty run of digits (digit-group
underscores are not modelled; no schedule data contains them). -/
def parsePyInt (s : List Char) : Option ℤ :=
  match pyStrip s with
  | '-' :: ds =>
      if ds ≠ [] ∧ ds.all (·.isDigit) then some (-(digitsToNat ds 0 : ℤ)) else none
  | '+' :: ds =>
      if ds ≠ [] ∧ ds.all (·.isDigit) then some ((digitsToNat ds 0 : ℤ)) else none
  | ds =>
      if ds ≠ [] ∧ ds.all (·.isDigit) then some ((digitsToNat ds 0 : ℤ)) else none

/-- Model of `ScheduleValidation.time_to_minutes`: parse "HH:MM" into minutes since
midnight; any unpacking, parsing or range failure raises the same
malformed-time error. -/
def time_to_minutes (time_str : String) : Except CalcError ℕ :=
  match splitOnChar ':' time_str.data with
  | [hs, ms] =>
    match parsePyInt hs, parsePyInt ms with
    | some hours, some minutes =>
      if 0 ≤ hours ∧ hours < 24 ∧ 0 ≤ minutes ∧ minutes < 60 then
        Except.ok (hours * 60 + minutes).toNat
      else Except.error CalcError.malformedTime
    | _, _ => Except.error CalcError.malformedTime
  | _ => Except.error CalcError.malformedTime

/-- The comparison at the heart of `ScheduleValidation.check_time_overlap`,
on minutes since midnight. -/
def overlapsMinutes (start1_min end1_min start2_min end2_min : ℕ) : Bool :=
  decide (start1_min < end2_min) && decide (end1_min > start2_min)

/-- Model of `ScheduleValidation.check_time_overlap`: convert the four "HH:MM"
strings and compare the two half-open ranges. -/
def check_time_overlap (start1 end1 start2 end2 : String) : Except CalcError Bool := do
  let start1_min ← time_to_minutes start1
  let end1_min ← time_to_minutes end1
  let start2_min ← time_to_minutes start2
  let end2_min ← time_to_minutes end2
  pure (overlapsMinutes start1_min end1_min start2_min end2_min)

/-- C7: two half-open minute ranges overlap iff the first starts before the
second ends and ends after the second starts, so touching endpoints do not
conflict: [14:00,16:00) vs [16:00,18:00) is no conflict while
[14:00,16:01) vs [16:00,18:00) is one. -/
theorem C7_overlaps_half_open :
    (∀ startA endA startB endB : ℕ,
      overlapsMinutes startA endA startB endB = true ↔ startA < endB ∧ endA > startB)
    ∧ check_time_overlap "14:00" "16:00" "16:00" "18:00" = Except.ok false
    ∧ check_time_overlap "14:00" "16:01" "16:00" "18:00" = Except.ok true := by
  refine ⟨?_, rfl, rfl⟩
  intro sA eA sB eB
  simp [overlapsMinutes]

/-- C8: `time_to_minutes` fails with the malformed-time error exactly when
its input does not split on ':' into two numeric parts with hours in
[0,24) and minutes in [0,60); on success it returns 60*hours+minutes. -/
theorem C8_timeToMinutes (s : String) :
    (time_to_minutes s = Except.error CalcError.malformedTime ↔
      ¬ ∃ hs ms H M, splitOnChar ':' s.data = [hs, ms] ∧ parsePyInt hs = some H ∧
          parsePyInt ms = some M ∧ 0 ≤ H ∧ H < 24 ∧ 0 ≤ M ∧ M < 60)
    ∧ (∀ hs ms : List Char, ∀ H M : ℕ, splitOnChar ':' s.data = [hs, ms] →
        parsePyInt hs = some (H : ℤ) → parsePyInt ms = some (M : ℤ) →
        H < 24 → M < 60 → time_to_minutes s = Except.ok (60 * H + M)) := by
  constructor
  · cases hl : splitOnChar ':' s.data with
    | nil => simp [time_to_minutes, hl]
    | cons hs t =>
      cases t with
      | nil => simp [time_to_minutes, hl]
      | cons ms t2 =>
        cases t2 with
        | cons x rest => simp [time_to_minutes, hl]
        | nil =>
          cases hH : parsePyInt hs with
          | none => simp [time_to_minutes, hl, hH]
          | some H =>
            cases hM : parsePyInt ms with
            | none => simp [time_to_minutes, hl, hH, hM]
            | some M =>
              by_cases hr : 0 ≤ H ∧ H < 24 ∧ 0 ≤ M ∧ M < 60
              · simp [time_to_minutes, hl, hH, hM, hr]
              · simp [time_to_minutes, hl, hH, hM, hr]
                omega
  · intro hs ms H M hl hH hM h24 h60
    have hcond : (0:ℤ) ≤ (H:ℤ) ∧ (H:ℤ) < 24 ∧ (0:ℤ) ≤ (M:ℤ) ∧ (M:ℤ) < 60 := by
      refine ⟨Int.ofNat_nonneg H, ?_, Int.ofNat_nonneg M, ?_⟩ <;> exact_mod_cast (by omega)
    simp only [time_to_minutes, hl, hH, hM, if_pos hcond]
    congr 1
    omega

/-- Association-list lookup modelling Python dict access / `in` test
(dict keys are unique, so first-match lookup is exact). -/
def lookupA {β : Type} : List (String × β) → String → Option β
  | [], _ => none
  | (k, v) :: rest, key => if k = key then some v else lookupA rest key

/-- Model of `PrerequisiteValidation.check_prerequisites`: a required code is kept
as missing unless it is a completed key with value ≥ 7.0; returns
(all-met flag, missing codes in input order). -/
def check_prerequisites (discipline_prerequisites : List String)
    (completed_disciplines : List (String × ℚ)) : Bool × List String :=
  let missing := discipline_prerequisites.filter (fun prereq_id =>
    match lookupA completed_disciplines prereq_id with
    | none => true
    | some v => decide (v < 7))
  (decide (missing.length = 0), missing)

/-- The spec-side reading of "satisfied": the code is a key of the
completed map with value ≥ 7.0. -/
def prereqSatisfied (completed : List (String × ℚ)) (c : String) : Prop :=
  ∃ v, lookupA completed c = some v ∧ 7 ≤ v

instance prereqSatisfiedDec (completed : List (String × ℚ)) (c : String) :
    Decidable (prereqSatisfied completed c) :=
  match h : lookupA completed c with
  | none => isFalse (by simp [prereqSatisfied, h])
  | some v =>
    if hv : 7 ≤ v then isTrue ⟨v, h, hv⟩
    else isFalse (by simp [prereqSatisfied, h]; exact not_le.mp hv)

lemma check_prereq_missing_eq (required : List String) (completed : List (String × ℚ)) :
    (check_prerequisites required completed).2 =
      required.filter (fun c => decide (¬ prereqSatisfied completed c)) := by
  unfold check_prerequisites
  simp only []
  apply List.filter_congr
  intro c _
  cases h : lookupA completed c with
  | none => simp [prereqSatisfied, h]
  | some v => simp [prereqSatisfied, h, not_le]

lemma check_prereq_fst_iff (required : List String) (completed : List (String × ℚ)) :
    (check_prerequisites required completed).1 = true ↔
      (check_prerequisites required completed).2 = [] := by
  unfold check_prerequisites
  simp [List.length_eq_zero]

/-- C4: the missing list is exactly the required codes, in order and with
duplicates kept, that are not completed with value ≥ 7.0; the all-met
flag is true iff that list is empty. -/
theorem C4_missingPrerequisites (required : List String) (completed : List (String × ℚ)) :
    (check_prerequisites required completed).2 =
      required.filter (fun c => decide (¬ prereqSatisfied completed c))
    ∧ ((check_prerequisites required completed).1 = true ↔
        (check_prerequisites required completed).2 = []) :=
  ⟨check_prereq_missing_eq required completed, check_prereq_fst_iff required completed⟩

/-- Model of `PrerequisiteValidation.validate_discipline_status`: sequential early
returns — completed, then studying, then available/blocked. -/
def validate_discipline_status (discipline_id : String)
    (discipline_prerequisites : List String)
    (completed_disciplines : List (String × ℚ))
    (enrolled_ids : List String) : String :=
  if (match lookupA completed_disciplines discipline_id with
      | some v => decide ((7:ℚ) ≤ v)
      | none => false) then "completed"
  else if discipline_id ∈ enrolled_ids then "studying"
  else if (check_prerequisites discipline_prerequisites completed_disciplines).1 then "available"
  else "blocked"

lemma completed_cond_iff (completed : List (String × ℚ)) (c : String) :
    (match lookupA completed c with
      | some v => decide ((7:ℚ) ≤ v)
      | none => false) = true ↔ prereqSatisfied completed c := by
  cases h : lookupA completed c <;> simp [prereqSatisfied, h]

/-- C5: the status is decided in strict priority order
completed → studying → available → blocked, and a discipline completed
with average 8.0 that is also currently enrolled reports "completed",
not "studying". -/
theorem C5_disciplineStatus (d_id : String) (prereqs : List String)
    (completed : List (String × ℚ)) (enrolled : List String) :
    validate_discipline_status d_id prereqs completed enrolled =
      (if prereqSatisfied completed d_id then "completed"
       else if d_id ∈ enrolled then "studying"
       else if (check_prerequisites prereqs completed).2 = [] then "available"
       else "blocked")
    ∧ validate_discipline_status "X" ["P"] [("X", 8)] ["X"] = "completed" := by
  constructor
  · simp only [validate_discipline_status, completed_cond_iff, check_prereq_fst_iff]
  · norm_num [validate_discipline_status, lookupA]

/-- A schedule entry of a discipline (keys day, start, end, location in
the Python dict; the end field is spelled `stop` since it is reserved). -/
structure TimeBlock where
  day : ℤ
  start : String
  stop : String
  location : String
deriving DecidableEq, Repr

/-- A stored discipline record. -/
structure Disc where
  code : String
  name : String
  professor : String
  period : ℤ
  hours : ℤ
  schedules : List TimeBlock
  prerequisites : List String
  n1 : Option ℚ
  n2 : Option ℚ
  n3 : Option ℚ
  media_final : Option ℚ
deriving DecidableEq, Repr

/-- A stored semester record. -/
structure Sem where
  code : String
  status : String
deriving DecidableEq, Repr

/-- The in-memory store of `Database`: three Python dicts, modelled as
insertion-ordered association lists with unique keys. -/
structure DB where
  disciplines : List (String × Disc)
  semesters : List (String × Sem)
  enrollments : List (String × List String)
deriving DecidableEq, Repr

/-- Python dict assignment `d[key] = v`: replace in place if present,
append if new. -/
def setAssoc {β : Type} : List (String × β) → String → β → List (String × β)
  | [], key, v => [(key, v)]
  | (k, w) :: rest, key, v =>
    if k = key then (k, v) :: rest else (k, w) :: setAssoc rest key v

/-- Python dict deletion `del d[key]`. -/
def eraseKey {β : Type} : List (String × β) → String → List (String × β)
  | [], _ => []
  | (k, v) :: rest, key => if k = key then rest else (k, v) :: eraseKey rest key

def DB.get_discipline (db : DB) (code : String) : Option Disc :=
  lookupA db.disciplines code

def DB.get_all_disciplines (db : DB) : List Disc :=
  db.disciplines.map (fun p => p.2)

def DB.get_semester (db : DB) (code : String) : Option Sem :=
  lookupA db.semesters code

/-- Model of `Database.get_enrolled_disciplines`: resolve the enrolled
codes of the semester, silently skipping codes with no record. -/
def DB.get_enrolled_disciplines (db : DB) (semester_code : String) : List Disc :=
  match lookupA db.enrollments semester_code with
  | none => []
  | some codes => codes.filterMap (fun code => lookupA db.disciplines code)

/-- Model of `Database.enroll_discipline`: append the code to the
semester list only when the semester exists, the discipline exists and the code is not
already enrolled; the Bool reports whether a change occurred. -/
def DB.enroll_discipline (db : DB) (semester_code discipline_code : String) : Bool × DB :=
  match lookupA db.enrollments semester_code with
  | none => (false, db)
  | some lst =>
    if lookupA db.disciplines discipline_code = none then (false, db)
    else if discipline_code ∈ lst then (false, db)
    else (true, { db with
      enrollments := setAssoc db.enrollments semester_code (lst ++ [discipline_code]) })

/-- Model of `Database.unenroll_discipline`: remove the code if present. -/
def DB.unenroll_discipline (db : DB) (semester_code discipline_code : String) : Bool × DB :=
  match lookupA db.enrollments semester_code with
  | none => (false, db)
  | some lst =>
    if discipline_code ∈ lst then
      (true, { db with
        enrollments := setAssoc db.enrollments semester_code (lst.erase discipline_code) })
    else (false, db)

/-- Model of `Database.delete_discipline`: drop the record, cascading by removing
the code from every enrollment list. -/
def DB.delete_discipline (db : DB) (code : String) : Bool × DB :=
  if lookupA db.disciplines code = none then (false, db)
  else (true, { db with
    disciplines := eraseKey db.disciplines code,
    enrollments := db.enrollments.map (fun p => (p.1, p.2.erase code)) })

def DB.create_discipline (db : DB) (disc : Disc) : DB :=
  { db with disciplines := setAssoc db.disciplines disc.code disc }

/-- Model of `Database.create_semester`: store the record and an empty enrollment
list under the semester code. -/
def DB.create_semester (db : DB) (sem : Sem) : DB :=
  { db with semesters := setAssoc db.semesters sem.code sem,
            enrollments := setAssoc db.enrollments sem.code [] }

/-- Model of `Database.update_discipline`; the dict merge of partial fields is
modelled as an arbitrary record update function. -/
def DB.update_discipline (db : DB) (code : String) (updates : Disc → Disc) :
    Option Disc × DB :=
  match lookupA db.disciplines code with
  | none => (none, db)
  | some d =>
    (some (updates d), { db with disciplines := setAssoc db.disciplines code (updates d) })

/-- Model of `Database.update_semester`; dict merge modelled as a record update
function. -/
def DB.update_semester (db : DB) (code : String) (updates : Sem → Sem) :
    Option Sem × DB :=
  match lookupA db.semesters code with
  | none => (none, db)
  | some s =>
    (some (updates s), { db with semesters := setAssoc db.semesters code (updates s) })

def DB.set_grades (db : DB) (code : String) (g1 g2 g3 : ℚ) : Bool × DB :=
  match lookupA db.disciplines code with
  | none => (false, db)
  | some d =>
    let d2 := { d with n1 := some g1, n2 := some g2, n3 := some g3 }
    (true, { db with disciplines := setAssoc db.disciplines code d2 })

/-- Inner loop of `ScheduleValidation.has_schedule_conflict`: compare one
block of the first discipline against each block of the second. -/
def hasConflictWithBlock (sch1 : TimeBlock) : List TimeBlock → Except CalcError Bool
  | [] => Except.ok false
  | sch2 :: rest =>
    if sch1.day = sch2.day then do
      let ov ← check_time_overlap sch1.start sch1.stop sch2.start sch2.stop
      if ov then pure true else hasConflictWithBlock sch1 rest
    else hasConflictWithBlock sch1 rest

/-- Model of `ScheduleValidation.has_schedule_conflict` (flag only; the
caller uses just the flag and the enrolled discipline name). -/
def has_schedule_conflict : List TimeBlock → List TimeBlock → Except CalcError Bool
  | [], _ => Except.ok false
  | sch1 :: rest, l2 => do
    let c ← hasConflictWithBlock sch1 l2
    if c then pure true else has_schedule_conflict rest l2

/-- The completed-disciplines map built inline by the enroll endpoint:
every stored discipline whose `media_final` is truthy and ≥ 7.0. -/
def completedMap (db : DB) : List (String × ℚ) :=
  db.get_all_disciplines.filterMap (fun disc =>
    match disc.media_final with
    | some m => if m ≠ 0 ∧ 7 ≤ m then some (disc.code, m) else none
    | none => none)

/-- Terminal outcomes of the enroll endpoint (HTTP 404s and the three
business results of the response body). -/
inductive EnrollOutcome where
  | semesterNotFound
  | disciplineNotFound
  | prerequisitesNotMet (missing_names : List String)
  | scheduleConflict (conflicting_name : String)
  | alreadyEnrolled
  | enrolledSuccessfully
deriving DecidableEq, Repr

/-- The conflict scan of the enroll endpoint: enrolled disciplines in
enrollment-list order, first conflicting one wins. -/
def firstConflict (target : Disc) : List Disc → Except CalcError (Option String)
  | [] => Except.ok none
  | enrolled_disc :: rest => do
    let c ← has_schedule_conflict target.schedules enrolled_disc.schedules
    if c then pure (some enrolled_disc.name) else firstConflict target rest

/-- The `/api/enroll` endpoint (`enroll_discipline` in
`api/enrollments.py`): resolve semester and discipline, check
prerequisites against the completed map, then scan enrolled disciplines
for a schedule conflict, then delegate to the store. -/
def enroll (db : DB) (semester_code discipline_code : String) :
    Except CalcError (EnrollOutcome × DB) :=
  match db.get_semester semester_code with
  | none => Except.ok (EnrollOutcome.semesterNotFound, db)
  | some _ =>
  match db.get_discipline discipline_code with
  | none => Except.ok (EnrollOutcome.disciplineNotFound, db)
  | some discipline =>
    let pr := check_prerequisites discipline.prerequisites (completedMap db)
    if pr.1 = false then
      Except.ok (EnrollOutcome.prerequisitesNotMet
        (pr.2.filterMap (fun code => (db.get_discipline code).map (fun x => x.name))), db)
    else do
      let conflict ← firstConflict discipline (db.get_enrolled_disciplines semester_code)
      match conflict with
      | some nm => pure (EnrollOutcome.scheduleConflict nm, db)
      | none =>
        let res := db.enroll_discipline semester_code discipline_code
        if res.1 then pure (EnrollOutcome.enrolledSuccessfully, res.2)
        else pure (EnrollOutcome.alreadyEnrolled, res.2)

lemma lookupA_setAssoc {β : Type} (l : List (String × β)) (k k' : String) (v : β) :
    lookupA (setAssoc l k v) k' = if k = k' then some v else lookupA l k' := by
  induction l with
  | nil => simp [setAssoc, lookupA]
  | cons p rest ih =>
    obtain ⟨pk, pv⟩ := p
    by_cases h1 : pk = k
    · subst h1
      simp only [setAssoc, if_pos rfl, lookupA]
      by_cases h2 : pk = k' <;> simp [h2]
    · simp only [setAssoc, if_neg h1, lookupA]
      by_cases h2 : pk = k'
      · subst h2
        have hk : ¬ k = pk := fun hh => h1 (by rw [hh])
        simp [hk]
      · simp [h2, ih]

lemma lookupA_eraseKey_ne {β : Type} (l : List (String × β)) (k k' : String)
    (h : k' ≠ k) : lookupA (eraseKey l k) k' = lookupA l k' := by
  induction l with
  | nil => rfl
  | cons p rest ih =>
    obtain ⟨pk, pv⟩ := p
    by_cases h1 : pk = k
    · subst h1
      have hk : ¬ pk = k' := fun hh => h (by rw [hh])
      simp [eraseKey, lookupA, hk]
    · simp [eraseKey, if_neg h1, lookupA, ih]

lemma lookupA_map_erase (l : List (String × List String)) (k code : String) :
    lookupA (l.map (fun p => (p.1, p.2.erase code))) k
      = (lookupA l k).map (fun lst => lst.erase code) := by
  induction l with
  | nil => rfl
  | cons p rest ih =>
    obtain ⟨pk, pv⟩ := p
    by_cases h : pk = k <;> simp [lookupA, h, ih]

/-- The store invariant of the claim: each semester enrollment list is
duplicate-free and refers only to existing disciplines. -/
def EnrollInv (db : DB) : Prop :=
  ∀ sc lst, lookupA db.enrollments sc = some lst →
    lst.Nodup ∧ ∀ c ∈ lst, lookupA db.disciplines c ≠ none

lemma enroll_discipline_none (db : DB) (sc dc : String)
    (hl : lookupA db.enrollments sc = none) :
    db.enroll_discipline sc dc = (false, db) := by
  unfold DB.enroll_discipline
  rw [hl]

lemma enroll_discipline_some (db : DB) (sc dc : String) (lst : List String)
    (hl : lookupA db.enrollments sc = some lst) :
    db.enroll_discipline sc dc =
      if lookupA db.disciplines dc = none then (false, db)
      else if dc ∈ lst then (false, db)
      else (true, { db with
        enrollments := setAssoc db.enrollments sc (lst ++ [dc]) }) := by
  unfold DB.enroll_discipline
  rw [hl]

lemma unenroll_discipline_none (db : DB) (sc dc : String)
    (hl : lookupA db.enrollments sc = none) :
    db.unenroll_discipline sc dc = (false, db) := by
  unfold DB.unenroll_discipline
  rw [hl]

lemma unenroll_discipline_some (db : DB) (sc dc : String) (lst : List String)
    (hl : lookupA db.enrollments sc = some lst) :
    db.unenroll_discipline sc dc =
      if dc ∈ lst then
        (true, { db with
          enrollments := setAssoc db.enrollments sc (lst.erase dc) })
      else (false, db) := by
  unfold DB.unenroll_discipline
  rw [hl]

lemma inv_enroll_discipline (db : DB) (h : EnrollInv db) (sc dc : String) :
    EnrollInv (db.enroll_discipline sc dc).2 := by
  cases hl : lookupA db.enrollments sc with
  | none => rw [enroll_discipline_none db sc dc hl]; exact h
  | some lst =>
    rw [enroll_discipline_some db sc dc lst hl]
    split_ifs with h1 h2
    · exact h
    · exact h
    · intro sc' lst' hl'
      simp only at hl'
      rw [lookupA_setAssoc] at hl'
      by_cases hsc : sc = sc'
      · rw [if_pos hsc] at hl'
        injection hl' with hl'
        subst hl'
        obtain ⟨hnd, href⟩ := h sc lst hl
        refine ⟨by simp [List.nodup_append, hnd, h2], ?_⟩
        intro c hc
        rcases List.mem_append.mp hc with hc | hc
        · exact href c hc
        · rw [List.mem_singleton] at hc
          subst hc
          exact h1
      · rw [if_neg hsc] at hl'
        exact h sc' lst' hl'

lemma inv_unenroll_discipline (db : DB) (h : EnrollInv db) (sc dc : String) :
    EnrollInv (db.unenroll_discipline sc dc).2 := by
  cases hl : lookupA db.enrollments sc with
  | none => rw [unenroll_discipline_none db sc dc hl]; exact h
  | some lst =>
    rw [unenroll_discipline_some db sc dc lst hl]
    split_ifs with h1
    · intro sc' lst' hl'
      simp only at hl'
      rw [lookupA_setAssoc] at hl'
      by_cases hsc : sc = sc'
      · rw [if_pos hsc] at hl'
        injection hl' with hl'
        subst hl'
        obtain ⟨hnd, href⟩ := h sc lst hl
        exact ⟨hnd.erase dc, fun c hc => href c (List.mem_of_mem_erase hc)⟩
      · rw [if_neg hsc] at hl'
        exact h sc' lst' hl'
    · exact h

lemma inv_delete_discipline (db : DB) (h : EnrollInv db) (code : String) :
    EnrollInv (db.delete_discipline code).2 := by
  unfold DB.delete_discipline
  split_ifs with h1
  · exact h
  · intro sc' lst' hl'
    dsimp only at hl' ⊢
    rw [lookupA_map_erase] at hl'
    cases hl2 : lookupA db.enrollments sc' with
    | none => rw [hl2] at hl'; cases hl'
    | some lst =>
      rw [hl2] at hl'
      injection hl' with hl'
      subst hl'
      obtain ⟨hnd, href⟩ := h sc' lst hl2
      refine ⟨hnd.erase code, ?_⟩
      intro c hc
      obtain ⟨hne, hmem⟩ := (List.Nodup.mem_erase_iff hnd).mp hc
      rw [lookupA_eraseKey_ne db.disciplines code c hne]
      exact href c hmem

lemma inv_create_discipline (db : DB) (h : EnrollInv db) (d : Disc) :
    EnrollInv (db.create_discipline d) := by
  intro sc' lst' hl'
  obtain ⟨hnd, href⟩ := h sc' lst' hl'
  refine ⟨hnd, fun c hc => ?_⟩
  simp only [DB.create_discipline, lookupA_setAssoc]
  split_ifs with hk
  · simp
  · exact href c hc

lemma inv_create_semester (db : DB) (h : EnrollInv db) (s : Sem) :
    EnrollInv (db.create_semester s) := by
  intro sc' lst' hl'
  simp only [DB.create_semester, lookupA_setAssoc] at hl'
  split_ifs at hl' with hk
  · injection hl' with hl'
    subst hl'
    exact ⟨List.nodup_nil, by simp⟩
  · exact h sc' lst' hl'

lemma update_discipline_eq (db : DB) (code : String) (updates : Disc → Disc) :
    db.update_discipline code updates =
      match lookupA db.disciplines code with
      | none => (none, db)
      | some d =>
        (some (updates d),
         { db with disciplines := setAssoc db.disciplines code (updates d) }) := rfl

lemma inv_update_discipline (db : DB) (h : EnrollInv db) (code : String)
    (updates : Disc → Disc) : EnrollInv (db.update_discipline code updates).2 := by
  rw [update_discipline_eq]
  cases hl : lookupA db.disciplines code with
  | none => exact h
  | some d =>
    intro sc' lst' hl'
    dsimp only at hl' ⊢
    obtain ⟨hnd, href⟩ := h sc' lst' hl'
    refine ⟨hnd, fun c hc => ?_⟩
    simp only [lookupA_setAssoc]
    split_ifs with hk
    · simp
    · exact href c hc

lemma update_semester_eq (db : DB) (code : String) (updates : Sem → Sem) :
    db.update_semester code updates =
      match lookupA db.semesters code with
      | none => (none, db)
      | some s =>
        (some (updates s),
         { db with semesters := setAssoc db.semesters code (updates s) }) := rfl

lemma inv_update_semester (db : DB) (h : EnrollInv db) (code : String)
    (updates : Sem → Sem) : EnrollInv (db.update_semester code updates).2 := by
  rw [update_semester_eq]
  cases hl : lookupA db.semesters code with
  | none => exact h
  | some s => exact h

lemma set_grades_eq (db : DB) (code : String) (g1 g2 g3 : ℚ) :
    db.set_grades code g1 g2 g3 =
      match lookupA db.disciplines code with
      | none => (false, db)
      | some d =>
        let d2 := { d with n1 := some g1, n2 := some g2, n3 := some g3 }
        (true, { db with disciplines := setAssoc db.disciplines code d2 }) := rfl

lemma inv_set_grades (db : DB) (h : EnrollInv db) (code : String) (g1 g2 g3 : ℚ) :
    EnrollInv (db.set_grades code g1 g2 g3).2 := by
  rw [set_grades_eq]
  cases hl : lookupA db.disciplines code with
  | none => exact h
  | some d =>
    intro sc' lst' hl'
    dsimp only at hl' ⊢
    obtain ⟨hnd, href⟩ := h sc' lst' hl'
    refine ⟨hnd, fun c hc => ?_⟩
    simp only [lookupA_setAssoc]
    split_ifs with hk
    · simp
    · exact href c hc

/-- C10: the no-duplicates / referential-integrity invariant on enrollment
lists is preserved by every store operation: enroll (appends only an
absent, existing code), unenroll, delete (cascades out of every
enrollment list), create/update of disciplines and semesters, and grade
setting. -/
theorem C10_store_invariant (db : DB) (sc dc code : String) (d : Disc) (s : Sem)
    (updd : Disc → Disc) (upds : Sem → Sem) (g1 g2 g3 : ℚ)
    (h : EnrollInv db) :
    EnrollInv (db.enroll_discipline sc dc).2
    ∧ EnrollInv (db.unenroll_discipline sc dc).2
    ∧ EnrollInv (db.delete_discipline code).2
    ∧ EnrollInv (db.create_discipline d)
    ∧ EnrollInv (db.create_semester s)
    ∧ EnrollInv (db.update_discipline code updd).2
    ∧ EnrollInv (db.update_semester code upds).2
    ∧ EnrollInv (db.set_grades code g1 g2 g3).2 :=
  ⟨inv_enroll_discipline db h sc dc, inv_unenroll_discipline db h sc dc,
   inv_delete_discipline db h code, inv_create_discipline db h d,
   inv_create_semester db h s, inv_update_discipline db h code updd,
   inv_update_semester db h code upds, inv_set_grades db h code g1 g2 g3⟩

lemma except_bind_ok {γ α β : Type} (a : α) (f : α → Except γ β) :
    (Except.ok a : Except γ α) >>= f = f a := rfl

lemma except_pure {γ α : Type} (a : α) : (pure a : Except γ α) = Except.ok a := rfl

lemma firstConflict_none (target : Disc) (l : List Disc)
    (h : ∀ e ∈ l, has_schedule_conflict target.schedules e.schedules = Except.ok false) :
    firstConflict target l = Except.ok none := by
  induction l with
  | nil => rfl
  | cons e rest ih =>
    have he := h e (by simp)
    simp only [firstConflict, he, except_bind_ok]
    simp only [Bool.false_eq_true, if_false]
    exact ih (fun x hx => h x (by simp [hx]))

lemma firstConflict_first (target : Disc) (l1 l2 : List Disc) (d : Disc)
    (h1 : ∀ e ∈ l1, has_schedule_conflict target.schedules e.schedules = Except.ok false)
    (hc : has_schedule_conflict target.schedules d.schedules = Except.ok true) :
    firstConflict target (l1 ++ d :: l2) = Except.ok (some d.name) := by
  induction l1 with
  | nil =>
    simp only [List.nil_append, firstConflict, hc, except_bind_ok]
    simp [except_pure]
  | cons e rest ih =>
    have he := h1 e (by simp)
    simp only [List.cons_append, firstConflict, he, except_bind_ok]
    simp only [Bool.false_eq_true, if_false]
    exact ih (fun x hx => h1 x (by simp [hx]))

/-- C3: with semester and discipline resolved and the enrolled list
splitting as `l1 ++ d :: l2` where nothing in `l1` conflicts with the
target and `d` does, the outcome is decided by the prerequisite check
first: if it fails, `prerequisitesNotMet` with the missing codes resolved
to names through the store (unresolvable codes dropped) even though a
conflict exists; only otherwise does the scan in enrollment-list order
report `scheduleConflict` naming the first conflicting discipline. -/
theorem C3_prereq_priority_and_first_conflict (db : DB) (sc dc : String) (sem : Sem)
    (target : Disc) (l1 l2 : List Disc) (d : Disc)
    (hsem : db.get_semester sc = some sem)
    (hdisc : db.get_discipline dc = some target)
    (hsplit : db.get_enrolled_disciplines sc = l1 ++ d :: l2)
    (hnoc : ∀ e ∈ l1, has_schedule_conflict target.schedules e.schedules = Except.ok false)
    (hc : has_schedule_conflict target.schedules d.schedules = Except.ok true) :
    enroll db sc dc =
      if (check_prerequisites target.prerequisites (completedMap db)).1 then
        Except.ok (EnrollOutcome.scheduleConflict d.name, db)
      else
        Except.ok (EnrollOutcome.prerequisitesNotMet
          ((check_prerequisites target.prerequisites (completedMap db)).2.filterMap
            (fun code => (db.get_discipline code).map (fun x => x.name))), db) := by
  have hfc : firstConflict target (db.get_enrolled_disciplines sc)
      = Except.ok (some d.name) := by
    rw [hsplit]
    exact firstConflict_first target l1 l2 d hnoc hc
  cases hpr : (check_prerequisites target.prerequisites (completedMap db)).1 with
  | false => simp [enroll, hsem, hdisc, hpr]
  | true => simp [enroll, hsem, hdisc, hpr, hfc, except_bind_ok, except_pure]

def semS : Sem := { code := "S", status := "Ativo" }

def dT : Disc :=
  { code := "T", name := "TARGET", professor := "P", period := 1, hours := 60,
    schedules := [{ day := 2, start := "15:00", stop := "17:00", location := "L" }],
    prerequisites := [], n1 := none, n2 := none, n3 := none, media_final := none }

def dA : Disc :=
  { code := "A", name := "ALFA", professor := "P", period := 1, hours := 60,
    schedules := [{ day := 3, start := "14:00", stop := "16:00", location := "L" }],
    prerequisites := [], n1 := none, n2 := none, n3 := none, media_final := none }

def dB : Disc :=
  { code := "B", name := "BETA", professor := "P", period := 1, hours := 60,
    schedules := [{ day := 2, start := "14:00", stop := "16:00", location := "L" }],
    prerequisites := [], n1 := none, n2 := none, n3 := none, media_final := none }

def dbC3 : DB :=
  { disciplines := [("T", dT), ("A", dA), ("B", dB)],
    semesters := [("S", semS)],
    enrollments := [("S", ["A", "B"])] }

theorem C3_witness :
    enroll dbC3 "S" "T" = Except.ok (EnrollOutcome.scheduleConflict "BETA", dbC3) := by
  have h := C3_prereq_priority_and_first_conflict dbC3 "S" "T" semS dT [dA] [] dB
    rfl rfl rfl (by intro e he; rw [List.mem_singleton] at he; subst he; rfl) rfl
  rw [h]
  rfl

def dC2 : Disc :=
  { code := "D", name := "ALGO", professor := "P", period := 1, hours := 60,
    schedules := [{ day := 1, start := "14:00", stop := "16:00", location := "L" }],
    prerequisites := [], n1 := none, n2 := none, n3 := none, media_final := none }

def dbC2 : DB :=
  { disciplines := [("D", dC2)],
    semesters := [("S", semS)],
    enrollments := [("S", ["D"])] }

/-- C2 counterexample: semester "S" and discipline "D" exist and "D" is
already enrolled in "S", yet re-enrolling returns `scheduleConflict`
(the schedule of that discipline conflicts with itself in the scan), not
`alreadyEnrolled` as the claim states. -/
theorem C2_counterexample :
    dbC2.get_semester "S" = some semS
    ∧ dbC2.get_discipline "D" = some dC2
    ∧ lookupA dbC2.enrollments "S" = some ["D"]
    ∧ "D" ∈ ["D"]
    ∧ enroll dbC2 "S" "D" = Except.ok (EnrollOutcome.scheduleConflict "ALGO", dbC2)
    ∧ EnrollOutcome.scheduleConflict "ALGO" ≠ EnrollOutcome.alreadyEnrolled :=
  ⟨rfl, rfl, rfl, by simp, rfl, by simp⟩

/-- C2 (amended): re-enrolling an already-enrolled discipline returns
`alreadyEnrolled` with the store unchanged, provided the workflow reaches
the store step: the prerequisites of the discipline are met and no
enrolled schedule conflicts with it (since the discipline itself is
among them, its own schedule must be self-conflict-free, e.g. empty). -/
theorem C2_alreadyEnrolled_idempotent (db : DB) (sc dc : String) (sem : Sem) (d : Disc)
    (lst : List String)
    (hsem : db.get_semester sc = some sem)
    (hdisc : db.get_discipline dc = some d)
    (hlst : lookupA db.enrollments sc = some lst)
    (henr : dc ∈ lst)
    (hpre : (check_prerequisites d.prerequisites (completedMap db)).1 = true)
    (hnoc : ∀ e ∈ db.get_enrolled_disciplines sc,
      has_schedule_conflict d.schedules e.schedules = Except.ok false) :
    enroll db sc dc = Except.ok (EnrollOutcome.alreadyEnrolled, db) := by
  have hfc : firstConflict d (db.get_enrolled_disciplines sc) = Except.ok none :=
    firstConflict_none d _ hnoc
  have hed : db.enroll_discipline sc dc = (false, db) := by
    rw [enroll_discipline_some db sc dc lst hlst]
    have hd : lookupA db.disciplines dc = some d := hdisc
    rw [if_neg (by simp [hd]), if_pos henr]
  simp [enroll, hsem, hdisc, hpre, hfc, hed, except_bind_ok, except_pure]

def dE : Disc :=
  { code := "E", name := "EMPTY", professor := "P", period := 1, hours := 60,
    schedules := [], prerequisites := [],
    n1 := none, n2 := none, n3 := none, media_final := none }

def dbC2w : DB :=
  { disciplines := [("E", dE)],
    semesters := [("S", semS)],
    enrollments := [("S", ["E"])] }

theorem C2_alreadyEnrolled_witness :
    enroll dbC2w "S" "E" = Except.ok (EnrollOutcome.alreadyEnrolled, dbC2w) :=
  C2_alreadyEnrolled_idempotent dbC2w "S" "E" semS dE ["E"] rfl rfl rfl (by simp)
    rfl (by
      intro e he
      rw [show dbC2w.get_enrolled_disciplines "S" = [dE] from rfl,
        List.mem_singleton] at he
      subst he
      rfl)

def dbEmpty : DB := { disciplines := [], semesters := [], enrollments := [] }

theorem C10_store_invariant_witness :
    EnrollInv dbEmpty
    ∧ (EnrollInv (dbEmpty.enroll_discipline "S" "D").2
       ∧ EnrollInv (dbEmpty.unenroll_discipline "S" "D").2
       ∧ EnrollInv (dbEmpty.delete_discipline "C").2
       ∧ EnrollInv (dbEmpty.create_discipline dE)
       ∧ EnrollInv (dbEmpty.create_semester semS)
       ∧ EnrollInv (dbEmpty.update_discipline "C" (fun x => x)).2
       ∧ EnrollInv (dbEmpty.update_semester "S" (fun x => x)).2
       ∧ EnrollInv (dbEmpty.set_grades "C" 8 9 10).2) := by
  have hinv : EnrollInv dbEmpty := by
    intro sc lst hl
    exact absurd hl (by simp [dbEmpty, lookupA])
  exact ⟨hinv, C10_store_invariant dbEmpty "S" "D" "C" dE semS
    (fun x => x) (fun x => x) 8 9 10 hinv⟩

theorem C8_timeToMinutes_witness :
    time_to_minutes "14:30" = Except.ok 870 := by
  have h := (C8_timeToMinutes "14:30").2 "14".data "30".data 14 30 rfl rfl rfl
    (by omega) (by omega)
  simpa using h
